import Mathlib

/-!
# Verification of the feishu-lottery-bot draw core

Shallow embedding of `src/lib/lottery-core.js`: the trigger classifier,
the mention-stripping text cleaner, the two participant collectors, the
winner selector, the retry wrapper, the in-memory key-value store, and the
draw-orchestration pipeline.  Network calls and JSON parsing are abstracted
into explicit oracle values carried by an environment record; everything
else is translated statement by statement from the JavaScript source.
-/

set_option maxHeartbeats 1000000

/-! ## JavaScript character classes and trimming

`parseMessageContent` cleans the message text with
`text.replace(/@_\w+\s*/g, '').trim()`.  We model `\w` as the ASCII word
characters and `\s` as the common JavaScript whitespace characters (the
exotic Unicode space code points never occur in the claims). -/

/-- JS regex `\w`: ASCII letters, digits and underscore. -/
def isWordChar (c : Char) : Bool := c.isAlphanum || c == '_'

/-- JS regex `\s` / `String.prototype.trim` whitespace class (ASCII part). -/
def isJsSpace (c : Char) : Bool :=
  c == ' ' || c == '\t' || c == '\n' || c == '\r' || c == '\x0b' || c == '\x0c'

/-- Remove trailing whitespace, as the right half of `String.prototype.trim`. -/
def trimRight : List Char → List Char
  | [] => []
  | c :: rest =>
    let r := trimRight rest
    if r.isEmpty && isJsSpace c then [] else c :: r

/-- `String.prototype.trim`: drop leading and trailing whitespace. -/
def jsTrim (l : List Char) : List Char := trimRight (l.dropWhile isJsSpace)

/-- One left-to-right pass of `text.replace(/@_\w+\s*/g, '')`
(lottery-core.js line 101).  At each position: if the scanner sees `@`
followed by `_` followed by at least one word character, the whole match
(including trailing whitespace, `\s*` being greedy) is dropped and scanning
resumes after it; otherwise the character is kept and the scanner advances
by one.  The fuel argument (instantiated with the list length, enough since
every step consumes at least one character) keeps the recursion structural
so that the function evaluates by `decide`. -/
def stripGo : Nat → List Char → List Char
  | 0, l => l
  | _ + 1, [] => []
  | fuel + 1, c :: rest =>
    if c = '@' ∧ rest.head? = some '_' then
      let r2 := rest.tail
      let w := r2.takeWhile isWordChar
      if w.isEmpty then c :: stripGo fuel rest
      else stripGo fuel ((r2.drop w.length).dropWhile isJsSpace)
    else c :: stripGo fuel rest

/-- `text.replace(/@_\w+\s*/g, '')` from `parseMessageContent`. -/
def stripMentions (l : List Char) : List Char := stripGo l.length l

/-- The cleaning step of `parseMessageContent` (lottery-core.js lines
100-102): strip `@_` mention placeholders, then trim. -/
def cleanText (s : String) : String := ⟨jsTrim (stripMentions s.data)⟩

/-- `true` iff the text contains an occurrence of the two-character mention
marker `@_`.  A text with `hasAtU = false` is "free of mention tokens" in
the sense of the specification. -/
def hasAtU : List Char → Bool
  | [] => false
  | c :: rest => decide (c = '@' ∧ rest.head? = some '_') || hasAtU rest

/-! ## Trigger classification (`isLotteryTrigger`, lines 142-153) -/

inductive LotteryType
  | like
  | range
deriving DecidableEq

/-- The JS object `{ isLottery, type }` returned by `isLotteryTrigger`. -/
structure TriggerResult where
  isLottery : Bool
  type : Option LotteryType
deriving DecidableEq

/-- `isLotteryTrigger` (lottery-core.js lines 142-153): exact membership in
the two keyword arrays. -/
def isLotteryTrigger (text : String) : TriggerResult :=
  if text = "开奖" ∨ text = "抽奖" then ⟨true, some .like⟩
  else if text = "区间开奖" ∨ text = "区间抽奖" then ⟨true, some .range⟩
  else ⟨false, none⟩

/-! ## Errors of the draw pipeline

One constructor per distinct `Error` message created in lottery-core.js. -/

inductive LotteryErr
  | invalidParams
  | parseFailed
  | notMentioned
  | notTrigger
  | noRootId
  | rootInfoFailed
  | createTimeFailed
  | collectFailed
  | noParticipants
  | allExhausted
  | notifyFailed
  | recordFailed
  | permissionDenied
deriving DecidableEq

/-! ## Winner selection (`selectWinner`, lines 492-511) -/

/-- The JS object `{ winnerId, participantCount }`. -/
structure SelectResult where
  winnerId : String
  participantCount : Nat
deriving DecidableEq

/-- `selectWinner(participants, historyWinners)` (lines 492-511).
`Math.floor(Math.random() * availableParticipants.length)` is modelled by
the explicit `randomIndex` argument; the JS expression always produces an
index strictly below `availableParticipants.length`, which theorems state
as a hypothesis.  (`List.getD` with default `""` stands for JS array
indexing.) -/
def selectWinner (participants historyWinners : List String)
    (randomIndex : Nat) : Except LotteryErr SelectResult :=
  if participants.isEmpty then .error .noParticipants
  else
    let availableParticipants :=
      participants.filter (fun userId => !(decide (userId ∈ historyWinners)))
    if availableParticipants.isEmpty then .error .allExhausted
    else .ok ⟨availableParticipants.getD randomIndex "", participants.length⟩

/-! ## In-memory store (`InMemoryRedis`, lines 1069-1086) -/

/-- The backing `Map` of `InMemoryRedis`, as an association list in which
the most recent binding for a key comes first. -/
structure InMemoryRedis where
  store : List (String × String)

/-- `new InMemoryRedis()`: an empty map. -/
def newRedis : InMemoryRedis := ⟨[]⟩

/-- `Map.prototype.get`: `undefined` (here `none`) when the key is absent. -/
def mapGet (s : List (String × String)) (k : String) : Option String :=
  (s.find? (fun e => e.1 == k)).map (fun e => e.2)

/-- `InMemoryRedis.get`: `this.store.get(key) || null` — an empty-string
value is falsy in JS and therefore collapses to `null`. -/
def redisGet (r : InMemoryRedis) (k : String) : Option String :=
  match mapGet r.store k with
  | none => none
  | some v => if v = "" then none else some v

/-- `InMemoryRedis.set`: store the binding and return `'OK'`. -/
def redisSet (r : InMemoryRedis) (k v : String) : InMemoryRedis × String :=
  (⟨(k, v) :: r.store⟩, "OK")

/-- `InMemoryRedis.del`: remove the binding, returning whether it existed. -/
def redisDel (r : InMemoryRedis) (k : String) : InMemoryRedis × Bool :=
  (⟨r.store.filter (fun e => !(e.1 == k))⟩, (mapGet r.store k).isSome)

/-! ## Participant collectors

The collectors iterate over pages returned by the paginated Feishu APIs.
A page whose `items` field is absent contributes nothing (`page.items &&
Array.isArray(page.items)` guard); we model the field as
`Option (List _)`.  JS `Set` accumulation preserves first-insertion order,
modelled by `addUnique`. -/

/-- `Set.prototype.add` on a set represented as a duplicate-free list in
insertion order. -/
def addUnique (acc : List String) (x : String) : List String :=
  if x ∈ acc then acc else acc ++ [x]

/-- Deduplicate a list keeping first occurrences, as a JS `Set` built by
iterating over the list would. -/
def dedupList (l : List String) : List String := l.foldl addUnique []

/-- All items of all pages in order (`none` pages contribute nothing). -/
def flatPages {α : Type} (pages : List (Option (List α))) : List α :=
  (pages.map (fun p => p.getD [])).flatten

/-- `reaction.operator` object of a reaction event. -/
structure ReactionOperator where
  operator_type : String
  operator_id : String
deriving DecidableEq

/-- One reaction event; `operator` may be absent (`reaction.operator?.`). -/
structure Reaction where
  operator : Option ReactionOperator
deriving DecidableEq

/-- The body of the `page.items.forEach` loop of `collectLikeUsers`
(lines 368-373): always count the reaction, and add the operator id to the
set only for `user`-type operators with a truthy id. -/
def likeStep (st : List String × Nat) (reaction : Reaction) :
    List String × Nat :=
  let st := (st.1, st.2 + 1)
  match reaction.operator with
  | some op =>
    if op.operator_type = "user" ∧ op.operator_id ≠ "" then
      (addUnique st.1 op.operator_id, st.2)
    else st
  | none => st

/-- `collectLikeUsers` (lines 356-384), as the pure iteration over the
already-fetched reaction pages: returns
`{ users: Array.from(userIdSet), reactionCount }`. -/
def collectLikeUsers (pages : List (Option (List Reaction))) :
    List String × Nat :=
  pages.foldl (fun st page => (page.getD []).foldl likeStep st) ([], 0)

/-- The operator id a reaction contributes to the participant set, if any:
`some` exactly when `reaction.operator?.operator_type === 'user' &&
reaction.operator?.operator_id`. -/
def reactionUserId (r : Reaction) : Option String :=
  match r.operator with
  | some op =>
    if op.operator_type = "user" ∧ op.operator_id ≠ "" then
      some op.operator_id
    else none
  | none => none

/-- `message.sender` object of a listed chat message. -/
structure MessageSender where
  sender_type : String
  id : String
deriving DecidableEq

/-- One message returned by `im.v1.message.list`; optional fields model
absent properties. -/
structure ChatMessage where
  message_id : String
  root_id : Option String
  sender : Option MessageSender
  deleted : Bool
deriving DecidableEq

/-- Loop counters of `collectRangeUsers`. -/
structure RangeState where
  users : List String
  messageCount : Nat
  excludedCount : Nat
  replyMessageCount : Nat
deriving DecidableEq

/-- `message.message_id === rootMessageId || message.message_id ===
triggerMessageId` (line 421). -/
def isExcludedMsg (rootMessageId triggerMessageId : String)
    (m : ChatMessage) : Bool :=
  decide (m.message_id = rootMessageId ∨ m.message_id = triggerMessageId)

/-- `message.root_id && message.root_id.trim() !== ''` (line 428). -/
def isReplyMsg (m : ChatMessage) : Bool :=
  match m.root_id with
  | some r => decide (r ≠ "" ∧ jsTrim r.data ≠ [])
  | none => false

/-- The sender filter of lines 438-444: sender present, `sender_type`
`'user'`, truthy id with non-blank trim, and not deleted. -/
def senderQualifies (m : ChatMessage) : Bool :=
  match m.sender with
  | some s =>
    decide (s.sender_type = "user" ∧ s.id ≠ "" ∧ jsTrim s.id.data ≠ [] ∧
      m.deleted = false)
  | none => false

/-- `message.sender.id` (read only after `senderQualifies` has held). -/
def msgSenderId (m : ChatMessage) : String :=
  (m.sender.map MessageSender.id).getD ""

/-- The body of the `page.items.forEach` loop of `collectRangeUsers`
(lines 417-447): count every message; classify as excluded
(root/trigger), reply, or — when the sender filter passes — a
contribution to the participant set. -/
def rangeStep (rootMessageId triggerMessageId : String) (st : RangeState)
    (m : ChatMessage) : RangeState :=
  let st := { st with messageCount := st.messageCount + 1 }
  if isExcludedMsg rootMessageId triggerMessageId m then
    { st with excludedCount := st.excludedCount + 1 }
  else if isReplyMsg m then
    { st with replyMessageCount := st.replyMessageCount + 1 }
  else if senderQualifies m then
    { st with users := addUnique st.users (msgSenderId m) }
  else st

/-- `collectRangeUsers` (lines 396-464) over already-fetched message
pages: returns `{ users, validMessageCount }` with
`validMessageCount = messageCount - excludedCount - replyMessageCount`. -/
def collectRangeUsers (rootMessageId triggerMessageId : String)
    (pages : List (Option (List ChatMessage))) : List String × Nat :=
  let st := pages.foldl
    (fun st page =>
      (page.getD []).foldl (rangeStep rootMessageId triggerMessageId) st)
    ⟨[], 0, 0, 0⟩
  (st.users, st.messageCount - st.excludedCount - st.replyMessageCount)

/-- The sender id a ranged message contributes to the participant set, if
any: `some` exactly when the message is neither the root nor the trigger
message, is not a reply, and passes the sender filter. -/
def rangeUserId (rootMessageId triggerMessageId : String)
    (m : ChatMessage) : Option String :=
  if !(isExcludedMsg rootMessageId triggerMessageId m) && !(isReplyMsg m)
      && senderQualifies m then
    some (msgSenderId m)
  else none

/-! ## Claim-side counting functions

These two definitions follow the words of the specification (spec.md
§4.4), *not* the source: they define "qualifying" events the way the
refuted claims C2/C3 do, in order to compare them with the counts the
code actually produces. -/

/-- Spec-side (claim C3): a reaction "qualifies only when its operator
type is \"user\"". -/
def claimLikeQualifies (r : Reaction) : Bool :=
  match r.operator with
  | some op => decide (op.operator_type = "user")
  | none => false

/-- Spec-side (claim C3): "statisticCount equals the total number of
qualifying reaction events before deduplication". -/
def claimLikeCount (pages : List (Option (List Reaction))) : Nat :=
  (flatPages pages).countP claimLikeQualifies

/-- Spec-side (claim C2): a message qualifies when it is not the root
message, not the trigger message, has no non-empty thread-root field, and
its sender is a human user with a non-empty id and not deleted. -/
def claimRangeQualifies (rootMessageId triggerMessageId : String)
    (m : ChatMessage) : Bool :=
  !(isExcludedMsg rootMessageId triggerMessageId m) && !(isReplyMsg m)
    && senderQualifies m

/-- Spec-side (claim C2): "statisticCount equals the number of messages in
the window that qualify for participation". -/
def claimRangeCount (rootMessageId triggerMessageId : String)
    (pages : List (Option (List ChatMessage))) : Nat :=
  (flatPages pages).countP (claimRangeQualifies rootMessageId triggerMessageId)

/-! ## Retry wrapper (`retryAsync`, lines 199-213)

`fn` gives the outcome of each attempt (attempt indices start at 0, as the
loop variable `i` does); the returned list records the backoff delays
awaited, in milliseconds, in order.  The `Option` in the error type models
`throw lastError` when no attempt ever ran (`lastError` still
`undefined`), which cannot happen with a positive `maxRetries`. -/

def retryGo {ε α : Type} (fn : Nat → Except ε α) (retryDelay maxRetries : Nat) :
    Nat → Nat → Option ε → List Nat → Except (Option ε) α × List Nat
  | 0, _, lastError, delays =>
    ((match lastError with
      | some e => .error (some e)
      | none => .error none), delays)
  | remaining + 1, i, _, delays =>
    match fn i with
    | .ok a => (.ok a, delays)
    | .error e =>
      if i < maxRetries - 1 then
        retryGo fn retryDelay maxRetries remaining (i + 1) (some e)
          (delays ++ [retryDelay * (i + 1)])
      else
        retryGo fn retryDelay maxRetries remaining (i + 1) (some e) delays

/-- `retryAsync(fn, logger, maxRetries, retryDelay)`: run the loop
`for (let i = 0; i < maxRetries; i++)` from attempt 0. -/
def retryAsync {ε α : Type} (fn : Nat → Except ε α)
    (maxRetries retryDelay : Nat) : Except (Option ε) α × List Nat :=
  retryGo fn retryDelay maxRetries maxRetries 0 none []

/-! ## The draw pipeline (`executeLottery`, lines 939-994)

The network-facing sub-steps (`getRootMessageInfo`,
`sendPermissionDeniedMessage`, `getHistoryWinners`,
`getMessageCreateTime`, the collector run, `sendReplyMessage`,
`saveLotteryRecord`) are abstracted into an environment of oracle values
(each already including its internal retries), and the pipeline records
which of these external effects it performed, in order, in a trace. -/

/-- One entry of `message.mentions` as checked by `isBotMentioned`
(truthiness of `mention.key` and `mention.id` is modelled by `≠ ""`). -/
structure Mention where
  key : String
  id : String
deriving DecidableEq

/-- The fields `validateAndExtractMessage` (lines 670-695) extracts from a
structurally valid event.  `contentText` is the outcome of
`JSON.parse(message.content).text`: `none` when parsing throws,
`some text` otherwise (the library JSON parser is treated as an oracle).
`rootMessageId = ""` models an absent/falsy `root_id`. -/
structure ParamsM where
  chatId : String
  contentText : Option String
  rootMessageId : String
  messageId : String
  senderId : String
  tenantKey : String
  mentions : List Mention
  createTime : Nat
deriving DecidableEq

/-- `isBotMentioned` (lines 113-125): a non-empty mentions array with at
least one entry whose `key` and `id` are both truthy. -/
def isBotMentioned (mentions : List Mention) : Bool :=
  !mentions.isEmpty && mentions.any (fun m => decide (m.key ≠ "" ∧ m.id ≠ ""))

/-- Collector result `{ users, statisticCount }` (the common contract of
`collectLikeUsers` / `collectRangeUsers` as consumed by
`getParticipants`). -/
structure CollectOut where
  users : List String
  statisticCount : Nat
deriving DecidableEq

/-- Environment of oracle outcomes for one pipeline run. -/
structure EnvM where
  /-- `getRootMessageInfo`: the resolved root-message sender id. -/
  rootSender : Except Unit String
  /-- whether the best-effort `sendPermissionDeniedMessage` succeeds. -/
  noticeOk : Bool
  /-- `getHistoryWinners` (never fails: lookup errors are swallowed). -/
  historyWinners : List String
  /-- `getMessageCreateTime` for the root message (range mode only). -/
  rootCreateTime : Except Unit Nat
  /-- the collector outcome for this run's mode. -/
  collect : Except Unit CollectOut
  /-- `Math.floor(Math.random() * availableParticipants.length)`. -/
  randomIndex : Nat
  /-- `sendReplyMessage` of the winner card: the sent message id. -/
  notify : Except Unit String
  /-- whether `saveLotteryRecord` succeeds. -/
  recordOk : Bool

/-- External effects the pipeline can perform, in execution order. -/
inductive Eff
  | noticeSent (ok : Bool)
  | timeFetched
  | collected
  | notified (ok : Bool)
  | recorded (ok : Bool)
deriving DecidableEq

/-- `validateMessageContent` (lines 700-751): mention gate, content
parse + clean, exact trigger match, root-id requirement, root-publisher
permission check.  On a sender mismatch the "publisher only" notice is
sent (its success or failure recorded in the trace but, as in the source,
otherwise ignored) and the stage fails with `permissionDenied`. -/
def validateMessageContentM (env : EnvM) (p : ParamsM) :
    Except LotteryErr LotteryType × List Eff :=
  if !(isBotMentioned p.mentions) then (.error .notMentioned, [])
  else match p.contentText with
  | none => (.error .parseFailed, [])
  | some rawText =>
    match (isLotteryTrigger (cleanText rawText)).type with
    | none => (.error .notTrigger, [])
    | some lotteryType =>
      if p.rootMessageId = "" then (.error .noRootId, [])
      else match env.rootSender with
        | .error _ => (.error .rootInfoFailed, [])
        | .ok rootSenderId =>
          if p.senderId ≠ rootSenderId then
            (.error .permissionDenied, [.noticeSent env.noticeOk])
          else (.ok lotteryType, [])

/-- `getParticipants` (lines 766-853): run the mode's collector (range
mode first resolves the root message's create time) and reject an empty
participant list. -/
def getParticipantsM (env : EnvM) (lt : LotteryType) :
    Except LotteryErr CollectOut × List Eff :=
  match lt with
  | .like =>
    match env.collect with
    | .error _ => (.error .collectFailed, [.collected])
    | .ok c =>
      if c.users.isEmpty then (.error .noParticipants, [.collected])
      else (.ok c, [.collected])
  | .range =>
    match env.rootCreateTime with
    | .error _ => (.error .createTimeFailed, [.timeFetched])
    | .ok _ =>
      match env.collect with
      | .error _ => (.error .collectFailed, [.timeFetched, .collected])
      | .ok c =>
        if c.users.isEmpty then
          (.error .noParticipants, [.timeFetched, .collected])
        else (.ok c, [.timeFetched, .collected])

/-- The `{ winnerId, participantCount }` value of a successful run. -/
structure FinalOut where
  winnerId : String
  participantCount : Nat
deriving DecidableEq

/-- `executeLottery` (lines 939-994): the strict sequential pipeline.
`none` for the params models a payload rejected by
`validateAndExtractMessage`.  Note the record step (lines 985-988): its
outcome only enters the trace — the function returns `Ok` with the winner
data whether or not `saveLotteryRecord` succeeded. -/
def executeLottery (env : EnvM) (pOpt : Option ParamsM) :
    Except LotteryErr FinalOut × List Eff :=
  match pOpt with
  | none => (.error .invalidParams, [])
  | some p =>
    match validateMessageContentM env p with
    | (.error e, tr) => (.error e, tr)
    | (.ok lotteryType, tr1) =>
      let historyWinners := env.historyWinners
      match getParticipantsM env lotteryType with
      | (.error e, tr2) => (.error e, tr1 ++ tr2)
      | (.ok c, tr2) =>
        match selectWinner c.users historyWinners env.randomIndex with
        | .error e => (.error e, tr1 ++ tr2)
        | .ok w =>
          match env.notify with
          | .error _ => (.error .notifyFailed, tr1 ++ tr2 ++ [.notified false])
          | .ok _ =>
            (.ok ⟨w.winnerId, w.participantCount⟩,
              tr1 ++ tr2 ++ [.notified true, .recorded env.recordOk])

/-! ## Concrete fixtures used by witness theorems -/

/-- A params fixture whose sender differs from the resolved root sender. -/
def paramsC5 : ParamsM :=
  ⟨"chat", some "开奖", "root", "mid", "sender", "", [⟨"k", "i"⟩], 0⟩

/-- An environment in which the root publisher is someone else and the
"publisher only" notice FAILS (`noticeOk := false`). -/
def envC5 : EnvM :=
  ⟨.ok "publisher", false, [], .ok 0, .ok ⟨["u1"], 1⟩, 0, .ok "sent", true⟩

/-- A params fixture triggered by the root publisher themselves. -/
def paramsC6 : ParamsM :=
  ⟨"chat", some "抽奖", "root", "mid", "sender", "", [⟨"k", "i"⟩], 0⟩

/-- An environment in which everything up to the announcement succeeds and
only the record step fails (`recordOk := false`). -/
def envC6 : EnvM :=
  ⟨.ok "sender", true, [], .ok 0, .ok ⟨["u1"], 3⟩, 0, .ok "sent", false⟩

/-! ## Theorems -/

/-- Helper: a successful `selectWinner` on a non-empty pool, written as one
conditional on the filtered (eligible) list. -/
theorem selectWinner_eq (P H : List String) (r : Nat) (hne : P ≠ []) :
    selectWinner P H r =
      if (P.filter (fun u => !(decide (u ∈ H)))) = [] then
        .error .allExhausted
      else
        .ok ⟨(P.filter (fun u => !(decide (u ∈ H)))).getD r "", P.length⟩ := by
  simp [selectWinner, List.isEmpty_iff, hne]

/-- Helper: in-range `getD` is list membership. -/
theorem getD_mem_of_lt {l : List String} {n : Nat} (h : n < l.length)
    (d : String) : l.getD n d ∈ l := by
  induction l generalizing n with
  | nil => simp at h
  | cons a t ih =>
    cases n with
    | zero => simp
    | succ m =>
      rw [List.getD_cons_succ]
      exact List.mem_cons_of_mem a (ih (by simpa using h) )

/-- C1 counterexample: with an empty participant list, "every element of P
is in H" holds vacuously, yet `selectWinner` reports the distinct
no-participants error, not exhaustion. -/
theorem selectWinner_empty_pool_cex :
    (∀ u ∈ ([] : List String), u ∈ ([] : List String)) ∧
    selectWinner [] [] 0 ≠ .error .allExhausted := by
  refine ⟨by simp, fun h => ?_⟩
  have h0 : selectWinner [] [] 0 = .error .noParticipants := rfl
  rw [h0] at h
  injection h with h1
  exact absurd h1 (by decide)

/-- C1 (amended): for every NON-EMPTY participant list P and every
history list H, `selectWinner` reports exhaustion iff every element of P
is in H, and otherwise (with the random index in range, as
`Math.floor(Math.random() * n)` always is) returns a winner drawn from
P ∖ H together with the pre-exclusion participant count. -/
theorem selectWinner_spec (P H : List String) (r : Nat) (hne : P ≠ []) :
    (selectWinner P H r = .error .allExhausted ↔ ∀ u ∈ P, u ∈ H) ∧
    (r < (P.filter (fun u => !(decide (u ∈ H)))).length →
      ∃ w, selectWinner P H r = .ok ⟨w, P.length⟩ ∧ w ∈ P ∧ w ∉ H) := by
  constructor
  · rw [selectWinner_eq P H r hne]
    by_cases hAe : (P.filter (fun u => !(decide (u ∈ H)))) = []
    · rw [if_pos hAe]
      simp only [List.filter_eq_nil_iff] at hAe
      constructor
      · intro _ u hu
        have := hAe u hu
        simpa using this
      · intro _; rfl
    · rw [if_neg hAe]
      constructor
      · intro h; cases h
      · intro hall
        exfalso
        rcases List.exists_mem_of_ne_nil _ hAe with ⟨u, hu⟩
        rcases List.mem_filter.mp hu with ⟨huP, hpred⟩
        have : u ∉ H := by simpa using hpred
        exact this (hall u huP)
  · intro hr
    have hAne : (P.filter (fun u => !(decide (u ∈ H)))) ≠ [] := by
      intro h; rw [h] at hr; simp at hr
    refine ⟨(P.filter (fun u => !(decide (u ∈ H)))).getD r "", ?_, ?_, ?_⟩
    · rw [selectWinner_eq P H r hne, if_neg hAne]
    · have hmem := getD_mem_of_lt hr ""
      exact (List.mem_filter.mp hmem).1
    · have hmem := getD_mem_of_lt hr ""
      have := (List.mem_filter.mp hmem).2
      simpa using this


/-- Witness for `selectWinner_spec` at P = ["a"], H = [], r = 0. -/
theorem selectWinner_spec_witness :
    selectWinner ["a"] [] 0 = .ok ⟨"a", 1⟩ ∧ "a" ∈ ["a"] ∧
      "a" ∉ ([] : List String) := by
  obtain ⟨w, hw, hmem, hnot⟩ :=
    (selectWinner_spec ["a"] [] 0 (by decide)).2 (by decide)
  have h0 : selectWinner ["a"] [] 0 = .ok ⟨"a", 1⟩ := rfl
  rw [h0] at hw
  injection hw with h1
  injection h1 with h2 h3
  subst h2
  exact ⟨h0, hmem, hnot⟩

/-- C7: on any successful selection the returned `participantCount` is the
length of the participant list as handed in — i.e. measured BEFORE the
historical-winner exclusion — and on duplicate-free participant lists
(the collectors only ever produce deduplicated lists, see
`collectors_users_nodup`) this is exactly the
size of the deduplicated participant set. -/
theorem participantCount_pre_exclusion (P H : List String) (r : Nat)
    (w : SelectResult) (hw : selectWinner P H r = .ok w) :
    w.participantCount = P.length ∧
    (P.Nodup → w.participantCount = P.dedup.length) := by
  have h1 : w.participantCount = P.length := by
    by_cases hne : P = []
    · subst hne; simp [selectWinner] at hw
    · rw [selectWinner_eq P H r hne] at hw
      by_cases hAe : (P.filter (fun u => !(decide (u ∈ H)))) = []
      · rw [if_pos hAe] at hw; cases hw
      · rw [if_neg hAe] at hw
        injection hw with h
        rw [← h]
  refine ⟨h1, fun hnd => ?_⟩
  rw [h1, List.dedup_eq_self.mpr hnd]

/-- Witness for `participantCount_pre_exclusion` at P = ["a", "b"],
H = ["a"], r = 0. -/
theorem participantCount_pre_exclusion_witness :
    (⟨"b", 2⟩ : SelectResult).participantCount = ["a", "b"].dedup.length :=
  (participantCount_pre_exclusion ["a", "b"] ["a"] 0 ⟨"b", 2⟩ rfl).2 (by decide)

/-- C8: trigger classification is exact string match — the two
reaction-mode keywords, the two range-mode keywords, and nothing else;
in particular any superstring of a keyword does not trigger. -/
theorem isLotteryTrigger_exact :
    isLotteryTrigger "开奖" = ⟨true, some .like⟩ ∧
    isLotteryTrigger "抽奖" = ⟨true, some .like⟩ ∧
    isLotteryTrigger "区间开奖" = ⟨true, some .range⟩ ∧
    isLotteryTrigger "区间抽奖" = ⟨true, some .range⟩ ∧
    ∀ t : String, t ≠ "开奖" → t ≠ "抽奖" → t ≠ "区间开奖" → t ≠ "区间抽奖" →
      isLotteryTrigger t = ⟨false, none⟩ := by
  refine ⟨by decide, by decide, by decide, by decide, ?_⟩
  intro t h1 h2 h3 h4
  simp [isLotteryTrigger, h1, h2, h3, h4]

/-- Witness for `isLotteryTrigger_exact` at the superstring "快开奖了". -/
theorem isLotteryTrigger_exact_witness :
    isLotteryTrigger "快开奖了" = ⟨false, none⟩ :=
  isLotteryTrigger_exact.2.2.2.2 "快开奖了" (by decide) (by decide) (by decide)
    (by decide)

/-- C10: for the in-memory store, `get` of a never-set key is `null`;
after `set k v` a `get k` returns `v` for non-empty `v`; and after
`set k ""` a `get k` returns `null`, indistinguishable from an unset
key. -/
theorem inMemoryRedis_get_set (r : InMemoryRedis) (k v : String) :
    redisGet newRedis k = none ∧
    (v ≠ "" → redisGet (redisSet r k v).1 k = some v) ∧
    redisGet (redisSet r k "").1 k = none := by
  refine ⟨rfl, fun hv => ?_, ?_⟩
  · simp [redisGet, redisSet, mapGet, List.find?, hv]
  · simp [redisGet, redisSet, mapGet, List.find?]

/-- Witness for `inMemoryRedis_get_set` at k = "a", v = "b". -/
theorem inMemoryRedis_get_set_witness :
    redisGet (redisSet newRedis "a" "b").1 "a" = some "b" :=
  (inMemoryRedis_get_set newRedis "a" "b").2.1 (by decide)

/-- Helper: the mention-stripping pass leaves any text without an `@_`
occurrence unchanged. -/
theorem stripGo_of_no_mention :
    ∀ (fuel : Nat) (l : List Char), hasAtU l = false → stripGo fuel l = l := by
  intro fuel
  induction fuel with
  | zero => intro l _; rfl
  | succ n ih =>
    intro l h
    cases l with
    | nil => rfl
    | cons c rest =>
      have hsplit : decide (c = '@' ∧ rest.head? = some '_') = false ∧
          hasAtU rest = false := by
        simpa [hasAtU] using h
      have hnc : ¬(c = '@' ∧ rest.head? = some '_') := by
        simpa using hsplit.1
      simp only [stripGo, if_neg hnc]
      rw [ih rest hsplit.2]

/-- Helper: dropping a prefix cannot create an `@_` occurrence. -/
theorem hasAtU_dropWhile (p : Char → Bool) (l : List Char)
    (h : hasAtU l = false) : hasAtU (l.dropWhile p) = false := by
  induction l with
  | nil => simpa using h
  | cons c rest ih =>
    have hsplit : decide (c = '@' ∧ rest.head? = some '_') = false ∧
        hasAtU rest = false := by
      simpa [hasAtU] using h
    rw [List.dropWhile_cons]
    by_cases hp : p c = true
    · rw [if_pos hp]; exact ih hsplit.2
    · rw [if_neg hp]; exact h

/-- Helper: trimming on the right preserves the head of the list when the
result is non-empty. -/
theorem trimRight_head? (l : List Char) (h : trimRight l ≠ []) :
    (trimRight l).head? = l.head? := by
  cases l with
  | nil => exact absurd rfl h
  | cons c rest =>
    by_cases hc : ((trimRight rest).isEmpty && isJsSpace c) = true
    · exact absurd (by simp [trimRight, hc]) h
    · simp [trimRight, hc]

/-- Helper: trimming on the right cannot create an `@_` occurrence. -/
theorem hasAtU_trimRight (l : List Char) (h : hasAtU l = false) :
    hasAtU (trimRight l) = false := by
  induction l with
  | nil => simpa using h
  | cons c rest ih =>
    have hsplit : decide (c = '@' ∧ rest.head? = some '_') = false ∧
        hasAtU rest = false := by
      simpa [hasAtU] using h
    by_cases hc : ((trimRight rest).isEmpty && isJsSpace c) = true
    · simp [trimRight, hc, hasAtU]
    · rw [show trimRight (c :: rest) = c :: trimRight rest from by
        simp [trimRight, hc]]
      have h2 := ih hsplit.2
      simp only [hasAtU, h2, Bool.or_false]
      by_cases htr : trimRight rest = []
      · simp [htr]
      · rw [trimRight_head? rest htr]
        exact hsplit.1

/-- Helper: the head surviving `dropWhile` fails the predicate. -/
theorem head?_dropWhile_not (p : Char → Bool) (l : List Char) :
    ∀ c, (l.dropWhile p).head? = some c → p c = false := by
  induction l with
  | nil => intro c hc; simp at hc
  | cons a rest ih =>
    intro c hc
    rw [List.dropWhile_cons] at hc
    by_cases hp : p a = true
    · rw [if_pos hp] at hc; exact ih c hc
    · rw [if_neg hp] at hc
      obtain rfl : a = c := by simpa using hc
      simpa using hp

/-- Helper: right-trimming is idempotent. -/
theorem trimRight_idem (l : List Char) :
    trimRight (trimRight l) = trimRight l := by
  induction l with
  | nil => rfl
  | cons c rest ih =>
    by_cases hc : ((trimRight rest).isEmpty && isJsSpace c) = true
    · simp [trimRight, hc]
    · rw [show trimRight (c :: rest) = c :: trimRight rest from by
        simp [trimRight, hc]]
      have hstep : trimRight (c :: trimRight rest) =
          if (trimRight (trimRight rest)).isEmpty && isJsSpace c then []
          else c :: trimRight (trimRight rest) := by
        simp [trimRight]
      rw [hstep, ih, if_neg hc]

/-- Helper: the JS `trim` is idempotent. -/
theorem jsTrim_idem (l : List Char) : jsTrim (jsTrim l) = jsTrim l := by
  unfold jsTrim
  have hdw : (trimRight (l.dropWhile isJsSpace)).dropWhile isJsSpace =
      trimRight (l.dropWhile isJsSpace) := by
    cases htr : trimRight (l.dropWhile isJsSpace) with
    | nil => rfl
    | cons c rest =>
      have hne : trimRight (l.dropWhile isJsSpace) ≠ [] := by rw [htr]; simp
      have hhead := trimRight_head? (l.dropWhile isJsSpace) hne
      rw [htr] at hhead
      have hc : isJsSpace c = false := by
        apply head?_dropWhile_not isJsSpace l c
        rw [← hhead]
        rfl
      rw [List.dropWhile_cons, if_neg (by simp [hc])]
  rw [hdw, trimRight_idem]

/-- C9: the cleaning transformation of `parseMessageContent` is idempotent
on any text free of `@_` mention tokens. -/
theorem cleanText_idempotent (s : String) (h : hasAtU s.data = false) :
    cleanText (cleanText s) = cleanText s := by
  have hstrip : stripMentions s.data = s.data := stripGo_of_no_mention _ _ h
  have h1 : cleanText s = String.mk (jsTrim s.data) := by
    unfold cleanText
    rw [hstrip]
  rw [h1]
  have hAtTrim : hasAtU (jsTrim s.data) = false := by
    unfold jsTrim
    exact hasAtU_trimRight _ (hasAtU_dropWhile _ _ h)
  have hstrip2 : stripMentions (jsTrim s.data) = jsTrim s.data :=
    stripGo_of_no_mention _ _ hAtTrim
  show String.mk (jsTrim (stripMentions (jsTrim s.data))) = String.mk (jsTrim s.data)
  rw [hstrip2, jsTrim_idem]

/-- Witness for `cleanText_idempotent` at the mention-free text
"  hello world  ". -/
theorem cleanText_idempotent_witness :
    cleanText (cleanText "  hello world  ") = cleanText "  hello world  " :=
  cleanText_idempotent "  hello world  " (by decide)

/-- Helper: the inner reaction loop counts every item and accumulates
exactly the user-operator ids. -/
theorem foldl_likeStep (items : List Reaction) (acc : List String) (n : Nat) :
    items.foldl likeStep (acc, n) =
      ((items.filterMap reactionUserId).foldl addUnique acc,
        n + items.length) := by
  induction items generalizing acc n with
  | nil => simp
  | cons r items ih =>
    rw [List.foldl_cons]
    cases hop : r.operator with
    | none =>
      have hstep : likeStep (acc, n) r = (acc, n + 1) := by simp [likeStep, hop]
      have hre : reactionUserId r = none := by simp [reactionUserId, hop]
      rw [hstep, ih]
      simp only [List.filterMap_cons, hre, List.length_cons]
      congr 1
      omega
    | some op =>
      by_cases hq : op.operator_type = "user" ∧ op.operator_id ≠ ""
      · have hstep : likeStep (acc, n) r = (addUnique acc op.operator_id, n + 1) := by
          simp [likeStep, hop, hq]
        have hre : reactionUserId r = some op.operator_id := by
          simp [reactionUserId, hop, hq]
        rw [hstep, ih]
        simp only [List.filterMap_cons, hre, List.length_cons, List.foldl_cons]
        congr 1
        omega
      · have hstep : likeStep (acc, n) r = (acc, n + 1) := by
          simp [likeStep, hop, hq]
        have hre : reactionUserId r = none := by simp [reactionUserId, hop, hq]
        rw [hstep, ih]
        simp only [List.filterMap_cons, hre, List.length_cons]
        congr 1
        omega

/-- Helper: `flatPages` unfolds page by page. -/
theorem flatPages_cons {α : Type} (p : Option (List α))
    (ps : List (Option (List α))) :
    flatPages (p :: ps) = p.getD [] ++ flatPages ps := by
  simp [flatPages]

/-- Helper: the whole paged reaction iteration, flattened. -/
theorem foldl_likePages (pages : List (Option (List Reaction)))
    (acc : List String) (n : Nat) :
    pages.foldl (fun st page => (page.getD []).foldl likeStep st) (acc, n) =
      (((flatPages pages).filterMap reactionUserId).foldl addUnique acc,
        n + (flatPages pages).length) := by
  induction pages generalizing acc n with
  | nil => simp [flatPages]
  | cons p ps ih =>
    rw [List.foldl_cons, foldl_likeStep, ih, flatPages_cons]
    rw [List.filterMap_append, List.foldl_append, List.length_append]
    congr 1
    omega

/-- Helper: closed form of the reaction collector. -/
theorem collectLikeUsers_char (pages : List (Option (List Reaction))) :
    (collectLikeUsers pages).2 = (flatPages pages).length ∧
    (collectLikeUsers pages).1 =
      dedupList ((flatPages pages).filterMap reactionUserId) := by
  unfold collectLikeUsers dedupList
  rw [foldl_likePages]
  exact ⟨by simp, rfl⟩

/-- C3 (amended): in reaction mode `statisticCount` is the total number of
reaction events across all pages — counted BEFORE the operator filter, so
non-`user` operators are included — while `participants` is the
first-occurrence deduplication of the operator ids of exactly those
reactions whose operator type is `user` with a non-empty operator id. -/
theorem collectLikeUsers_spec (pages : List (Option (List Reaction))) :
    (collectLikeUsers pages).2 = (flatPages pages).length ∧
    (collectLikeUsers pages).1 =
      dedupList ((flatPages pages).filterMap reactionUserId) :=
  collectLikeUsers_char pages

/-- C3 counterexample: a single reaction whose operator is an app (not a
user) is still counted by the code, while the claim's qualifying-events
count says it must not be: the two counts differ on this input. -/
theorem collectLikeUsers_count_cex :
    (collectLikeUsers [some [⟨some ⟨"app", "a1"⟩⟩]]).2 ≠
      claimLikeCount [some [⟨some ⟨"app", "a1"⟩⟩]] := by decide

/-- Helper: the inner message loop of the range collector, characterized
field by field: total count, excluded count, reply count (among
non-excluded messages), and the accumulated sender ids of the messages
passing all filters. -/
theorem foldl_rangeStep (rid tid : String) (msgs : List ChatMessage)
    (st : RangeState) :
    msgs.foldl (rangeStep rid tid) st =
      ⟨(msgs.filterMap (rangeUserId rid tid)).foldl addUnique st.users,
        st.messageCount + msgs.length,
        st.excludedCount + msgs.countP (isExcludedMsg rid tid),
        st.replyMessageCount +
          msgs.countP (fun m => !(isExcludedMsg rid tid m) && isReplyMsg m)⟩ := by
  induction msgs generalizing st with
  | nil => simp
  | cons m ms ih =>
    rw [List.foldl_cons, List.filterMap_cons, List.countP_cons, List.countP_cons,
      List.length_cons]
    by_cases hex : isExcludedMsg rid tid m = true
    · have hstep : rangeStep rid tid st m =
          ⟨st.users, st.messageCount + 1, st.excludedCount + 1,
            st.replyMessageCount⟩ := by
        simp [rangeStep, hex]
      have huid : rangeUserId rid tid m = none := by simp [rangeUserId, hex]
      rw [hstep, ih]
      simp [huid, hex, RangeState.mk.injEq]
      omega
    · have hex' : isExcludedMsg rid tid m = false := by simpa using hex
      by_cases hrep : isReplyMsg m = true
      · have hstep : rangeStep rid tid st m =
            ⟨st.users, st.messageCount + 1, st.excludedCount,
              st.replyMessageCount + 1⟩ := by
          simp [rangeStep, hex', hrep]
        have huid : rangeUserId rid tid m = none := by
          simp [rangeUserId, hex', hrep]
        rw [hstep, ih]
        simp [huid, hex', hrep, RangeState.mk.injEq]
        omega
      · have hrep' : isReplyMsg m = false := by simpa using hrep
        by_cases hq : senderQualifies m = true
        · have hstep : rangeStep rid tid st m =
              ⟨addUnique st.users (msgSenderId m), st.messageCount + 1,
                st.excludedCount, st.replyMessageCount⟩ := by
            simp [rangeStep, hex', hrep', hq]
          have huid : rangeUserId rid tid m = some (msgSenderId m) := by
            simp [rangeUserId, hex', hrep', hq]
          rw [hstep, ih]
          simp [huid, hex', hrep', hq, List.foldl_cons, RangeState.mk.injEq]
          omega
        · have hq' : senderQualifies m = false := by simpa using hq
          have hstep : rangeStep rid tid st m =
              ⟨st.users, st.messageCount + 1, st.excludedCount,
                st.replyMessageCount⟩ := by
            simp [rangeStep, hex', hrep', hq']
          have huid : rangeUserId rid tid m = none := by
            simp [rangeUserId, hex', hrep', hq']
          rw [hstep, ih]
          simp [huid, hex', hrep', hq', RangeState.mk.injEq]
          omega

/-- Helper: the whole paged message iteration, flattened. -/
theorem foldl_rangePages (rid tid : String)
    (pages : List (Option (List ChatMessage))) (st : RangeState) :
    pages.foldl
        (fun st page => (page.getD []).foldl (rangeStep rid tid) st) st =
      ⟨((flatPages pages).filterMap (rangeUserId rid tid)).foldl addUnique
          st.users,
        st.messageCount + (flatPages pages).length,
        st.excludedCount + (flatPages pages).countP (isExcludedMsg rid tid),
        st.replyMessageCount + (flatPages pages).countP
          (fun m => !(isExcludedMsg rid tid m) && isReplyMsg m)⟩ := by
  induction pages generalizing st with
  | nil => simp [flatPages]
  | cons p ps ih =>
    rw [List.foldl_cons, foldl_rangeStep, ih, flatPages_cons]
    rw [List.filterMap_append, List.foldl_append, List.length_append,
      List.countP_append, List.countP_append]
    simp [RangeState.mk.injEq]
    omega

/-- Helper: every message in the window falls in exactly one of the three
buckets: excluded (root/trigger), reply among the rest, or neither. -/
theorem range_length_partition (rid tid : String) (l : List ChatMessage) :
    l.length = l.countP (isExcludedMsg rid tid) +
      l.countP (fun m => !(isExcludedMsg rid tid m) && isReplyMsg m) +
      l.countP (fun m => !(isExcludedMsg rid tid m) && !(isReplyMsg m)) := by
  induction l with
  | nil => simp
  | cons m ms ih =>
    rw [List.length_cons, List.countP_cons, List.countP_cons, List.countP_cons]
    by_cases hex : isExcludedMsg rid tid m = true
    · simp [hex]
      omega
    · have hex' : isExcludedMsg rid tid m = false := by simpa using hex
      by_cases hrep : isReplyMsg m = true
      · simp [hex', hrep]
        omega
      · have hrep' : isReplyMsg m = false := by simpa using hrep
        simp [hex', hrep']
        omega

/-- Helper: closed form of the range collector. -/
theorem collectRangeUsers_char (rid tid : String)
    (pages : List (Option (List ChatMessage))) :
    (collectRangeUsers rid tid pages).2 =
      (flatPages pages).countP
        (fun m => !(isExcludedMsg rid tid m) && !(isReplyMsg m)) ∧
    (collectRangeUsers rid tid pages).1 =
      dedupList ((flatPages pages).filterMap (rangeUserId rid tid)) := by
  unfold collectRangeUsers dedupList
  rw [foldl_rangePages]
  refine ⟨?_, rfl⟩
  have hpart := range_length_partition rid tid (flatPages pages)
  simp only [Nat.zero_add]
  omega

/-- C2 (amended): in range mode `statisticCount` is the number of window
messages that are neither the root message, the trigger message, nor
replies — the sender filter does NOT enter this count, so messages from
bots or deleted messages are included — while `participants` is the
first-occurrence deduplication of the sender ids of exactly those window
messages that additionally pass the sender filter (human user, truthy
non-blank id, not deleted). -/
theorem collectRangeUsers_spec (rid tid : String)
    (pages : List (Option (List ChatMessage))) :
    (collectRangeUsers rid tid pages).2 =
      (flatPages pages).countP
        (fun m => !(isExcludedMsg rid tid m) && !(isReplyMsg m)) ∧
    (collectRangeUsers rid tid pages).1 =
      dedupList ((flatPages pages).filterMap (rangeUserId rid tid)) :=
  collectRangeUsers_char rid tid pages

/-- C2 counterexample: a window containing one bot-authored message (not
root, not trigger, not a reply) — the code counts it in `statisticCount`,
the claim's qualifying-messages count does not. -/
theorem collectRangeUsers_count_cex :
    (collectRangeUsers "root" "trig"
        [some [⟨"m1", none, some ⟨"bot", "b1"⟩, false⟩]]).2 ≠
      claimRangeCount "root" "trig"
        [some [⟨"m1", none, some ⟨"bot", "b1"⟩, false⟩]] := by decide

/-- Helper: `addUnique` preserves duplicate-freedom. -/
theorem addUnique_nodup (acc : List String) (x : String) (h : acc.Nodup) :
    (addUnique acc x).Nodup := by
  unfold addUnique
  by_cases hx : x ∈ acc
  · rw [if_pos hx]; exact h
  · rw [if_neg hx]
    simp [List.nodup_append, h, hx]

/-- Helper: folding `addUnique` from a duplicate-free accumulator stays
duplicate-free. -/
theorem foldl_addUnique_nodup (l : List String) :
    ∀ acc : List String, acc.Nodup → (l.foldl addUnique acc).Nodup := by
  induction l with
  | nil => intro acc h; exact h
  | cons a t ih => intro acc h; exact ih _ (addUnique_nodup _ _ h)

/-- Helper: `dedupList` always produces a duplicate-free list. -/
theorem dedupList_nodup (l : List String) : (dedupList l).Nodup :=
  foldl_addUnique_nodup l [] List.nodup_nil

/-- Helper: both collectors hand the selector a duplicate-free participant
list (so `participantCount` is a true set cardinality). -/
theorem collectors_users_nodup (pages : List (Option (List Reaction)))
    (rid tid : String) (mpages : List (Option (List ChatMessage))) :
    (collectLikeUsers pages).1.Nodup ∧
    (collectRangeUsers rid tid mpages).1.Nodup := by
  refine ⟨?_, ?_⟩
  · rw [(collectLikeUsers_char pages).2]
    exact dedupList_nodup _
  · rw [(collectRangeUsers_char rid tid mpages).2]
    exact dedupList_nodup _

/-- C4: with the defaults (3 attempts, 1000ms base delay) the retry
wrapper returns the first successful attempt's result, having waited
i × 1000ms after the i-th failed attempt; and when all three attempts
fail, exactly the error of the third (last) attempt propagates, with
waits of 1000ms and 2000ms after the first two failures and none after
the last. -/
theorem retryAsync_spec {ε α : Type} (fn : Nat → Except ε α) :
    (∀ k a, k < 3 → (∀ j, j < k → ∃ e, fn j = .error e) → fn k = .ok a →
      retryAsync fn 3 1000 =
        (.ok a, (List.range k).map (fun i => 1000 * (i + 1)))) ∧
    (∀ e0 e1 e2, fn 0 = .error e0 → fn 1 = .error e1 → fn 2 = .error e2 →
      retryAsync fn 3 1000 = (.error (some e2), [1000, 2000])) := by
  constructor
  · intro k a hk hfail hok
    interval_cases k
    · simp [retryAsync, retryGo, hok]
    · obtain ⟨e0, he0⟩ := hfail 0 (by omega)
      simp [retryAsync, retryGo, he0, hok, List.range_succ]
    · obtain ⟨e0, he0⟩ := hfail 0 (by omega)
      obtain ⟨e1, he1⟩ := hfail 1 (by omega)
      simp [retryAsync, retryGo, he0, he1, hok, List.range_succ]
  · intro e0 e1 e2 h0 h1 h2
    simp [retryAsync, retryGo, h0, h1, h2]

/-- Witness for `retryAsync_spec`: a function failing twice then
succeeding returns the success with delays 1000ms and 2000ms; a function
failing three times propagates the last error. -/
theorem retryAsync_spec_witness :
    retryAsync
        (fun i => if i < 2 then (.error "boom" : Except String String)
          else .ok "val") 3 1000
      = (.ok "val", [1000, 2000]) ∧
    retryAsync (fun _ : Nat => (.error "bad" : Except String String)) 3 1000
      = (.error (some "bad"), [1000, 2000]) := by
  constructor
  · have h := (retryAsync_spec
        (fun i => if i < 2 then (.error "boom" : Except String String)
          else .ok "val")).1 2 "val" (by omega)
      (fun j hj => ⟨"boom", by interval_cases j <;> rfl⟩) rfl
    simpa using h
  · exact (retryAsync_spec _).2 "bad" "bad" "bad" rfl rfl rfl

/-- C5: whenever the triggering sender differs from the resolved
root-message publisher (all earlier gates passing), the pipeline fails
with `permissionDenied` and its effect trace contains only the
best-effort "publisher only" notice — in particular no participant
collection is ever performed — and this holds whether the notice send
succeeds or fails (`env.noticeOk` is arbitrary and only recorded). -/
theorem permissionDenied_blocks_collection (env : EnvM) (p : ParamsM)
    (t : String) (lt : LotteryType) (rs : String)
    (hm : isBotMentioned p.mentions = true)
    (hc : p.contentText = some t)
    (ht : (isLotteryTrigger (cleanText t)).type = some lt)
    (hr : p.rootMessageId ≠ "")
    (hs : env.rootSender = .ok rs)
    (hd : p.senderId ≠ rs) :
    executeLottery env (some p) =
      (.error .permissionDenied, [.noticeSent env.noticeOk]) ∧
    Eff.collected ∉ (executeLottery env (some p)).2 := by
  have hv : validateMessageContentM env p =
      (.error .permissionDenied, [.noticeSent env.noticeOk]) := by
    simp [validateMessageContentM, hm, hc, ht, hr, hs, hd]
  have he : executeLottery env (some p) =
      (.error .permissionDenied, [.noticeSent env.noticeOk]) := by
    simp [executeLottery, hv]
  exact ⟨he, by rw [he]; simp⟩

/-- Witness for `permissionDenied_blocks_collection`: a concrete run in
which the notice send FAILS (`noticeOk = false`) still rejects with
`permissionDenied` and performs no collection. -/
theorem permissionDenied_blocks_collection_witness :
    executeLottery envC5 (some paramsC5) =
      (.error .permissionDenied, [.noticeSent false]) :=
  (permissionDenied_blocks_collection envC5 paramsC5 "开奖" .like "publisher"
    (by decide) rfl (by decide) (by decide) rfl (by decide)).1

/-- C6: when every stage through sending the winner announcement succeeds
but persisting the draw record fails (`recordOk = false`), the pipeline
still returns success carrying the already-selected winner and the
pre-exclusion participant count, and the trace shows the failed record
attempt. -/
theorem record_failure_swallowed (env : EnvM) (p : ParamsM)
    (t : String) (lt : LotteryType) (rt : Nat) (c : CollectOut) (mid : String)
    (hm : isBotMentioned p.mentions = true)
    (hc : p.contentText = some t)
    (ht : (isLotteryTrigger (cleanText t)).type = some lt)
    (hr : p.rootMessageId ≠ "")
    (hs : env.rootSender = .ok p.senderId)
    (hrt : env.rootCreateTime = .ok rt)
    (hcol : env.collect = .ok c)
    (hne : c.users ≠ [])
    (helig : c.users.filter (fun u => !(decide (u ∈ env.historyWinners))) ≠ [])
    (hnot : env.notify = .ok mid)
    (hrec : env.recordOk = false) :
    (executeLottery env (some p)).1 =
      .ok ⟨(c.users.filter
          (fun u => !(decide (u ∈ env.historyWinners)))).getD env.randomIndex "",
        c.users.length⟩ ∧
    Eff.recorded false ∈ (executeLottery env (some p)).2 := by
  have hv : validateMessageContentM env p = (.ok lt, []) := by
    simp [validateMessageContentM, hm, hc, ht, hr, hs]
  have hsel : selectWinner c.users env.historyWinners env.randomIndex =
      .ok ⟨(c.users.filter
          (fun u => !(decide (u ∈ env.historyWinners)))).getD env.randomIndex "",
        c.users.length⟩ := by
    rw [selectWinner_eq _ _ _ hne, if_neg helig]
  cases lt with
  | like =>
    have hgp : getParticipantsM env .like = (.ok c, [.collected]) := by
      simp [getParticipantsM, hcol, List.isEmpty_iff, hne]
    have he : executeLottery env (some p) =
        (.ok ⟨(c.users.filter
            (fun u => !(decide (u ∈ env.historyWinners)))).getD env.randomIndex "",
          c.users.length⟩,
          [] ++ [.collected] ++ [.notified true, .recorded env.recordOk]) := by
      simp [executeLottery, hv, hgp, hsel, hnot]
    rw [he, hrec]
    exact ⟨rfl, by simp⟩
  | range =>
    have hgp : getParticipantsM env .range = (.ok c, [.timeFetched, .collected]) := by
      simp [getParticipantsM, hrt, hcol, List.isEmpty_iff, hne]
    have he : executeLottery env (some p) =
        (.ok ⟨(c.users.filter
            (fun u => !(decide (u ∈ env.historyWinners)))).getD env.randomIndex "",
          c.users.length⟩,
          [] ++ [.timeFetched, .collected] ++ [.notified true, .recorded env.recordOk]) := by
      simp [executeLottery, hv, hgp, hsel, hnot]
    rw [he, hrec]
    exact ⟨rfl, by simp⟩

/-- Witness for `record_failure_swallowed`: a concrete all-good run whose
record step fails still reports the winner and the participant count. -/
theorem record_failure_swallowed_witness :
    (executeLottery envC6 (some paramsC6)).1 = .ok ⟨"u1", 1⟩ ∧
    Eff.recorded false ∈ (executeLottery envC6 (some paramsC6)).2 := by
  have h := record_failure_swallowed envC6 paramsC6 "抽奖" .like 0 ⟨["u1"], 3⟩
    "sent" (by decide) rfl (by decide) (by decide) rfl rfl rfl (by decide)
    (by decide) rfl rfl
  exact ⟨by simpa using h.1, h.2⟩
